import Mathlib

/-!
Verification of the FMC SNORT utilization / network performance dashboard
(`flask_app/app.py`, `flask_app/fmc.py`, `flask_app/thousandeyes.py`).

Shallow embedding conventions:
* Python dictionaries are association lists `List (K × V)` with insertion-order
  semantics: assigning to an existing key updates it in place, assigning to a
  new key appends it at the end (CPython dict semantics).
* A raw metric value (the JSON value stored by the FMC health API) is modelled
  as `Option ℚ`: `some q` when Python `float(value)` would return `q`, and
  `none` when `float(value)` would raise (a non-numeric value).
* A raw health sample (`[time_stamp, value]`) is `Option (ℕ × Option ℚ)`:
  the outer `none` models a record whose processing raises inside
  `convert_snort_metric_data`'s try block (bad timestamp, missing element),
  which the code catches and skips.
* Functions that can raise an uncaught Python exception return `Option _`,
  with `none` for the propagated exception.
* Python `float` arithmetic is modelled exactly over `ℚ`; `round(x, 1)` is
  modelled as round-half-to-even at one decimal, CPython's documented rounding
  mode for `round`.
-/

namespace Dashboard

/-! ## Association-list model of Python dict -/

/-- Python dict assignment `d[k] = v`: update in place if `k` is present
(keeping its position), else append `(k, v)` at the end. -/
def dinsert {K V : Type} [DecidableEq K] (k : K) (v : V) :
    List (K × V) → List (K × V)
  | [] => [(k, v)]
  | (k1, v1) :: rest =>
      if k1 = k then (k, v) :: rest else (k1, v1) :: dinsert k v rest

/-- Python dict lookup `d[k]` / `k in d`, as an `Option`. -/
def dlookup {K V : Type} [DecidableEq K] (k : K) :
    List (K × V) → Option V
  | [] => none
  | (k1, v1) :: rest => if k1 = k then some v1 else dlookup k rest

/-- The keys of a dict, in insertion order. -/
def dkeys {K V : Type} (d : List (K × V)) : List K := d.map Prod.fst

/-- Value carried by the last entry of `es` whose key is `k`
(`none` when no entry has key `k`). -/
def lastWith {K V : Type} [DecidableEq K] (k : K) :
    List (K × V) → Option V
  | [] => none
  | (k1, v) :: rest =>
      match lastWith k rest with
      | some w => some w
      | none => if k1 = k then some v else none

/-- Left-biased choice on `Option`. -/
def orO {V : Type} (a b : Option V) : Option V :=
  match a with
  | some v => some v
  | none => b

/-- One iteration of a skip-on-failure dict-building loop: extract a
`(key, value)` pair from the record with `f` and assign it, or leave the dict
unchanged when the extraction raises (`f r = none`). -/
def insertStep {A K V : Type} [DecidableEq K] (f : A → Option (K × V))
    (d : List (K × V)) (r : A) : List (K × V) :=
  match f r with
  | some kv => dinsert kv.1 kv.2 d
  | none => d

/-! ## Timestamp formatting (`datetime.datetime.utcfromtimestamp(ts).strftime("%H:%M")`) -/

/-- Zero-padded two-digit decimal rendering used by `strftime`. -/
def two (n : ℕ) : String := if n < 10 then "0" ++ toString n else toString n

/-- The `"HH:MM"` label of a Unix timestamp in UTC, as produced by
`datetime.datetime.utcfromtimestamp(ts).strftime("%H:%M")`. -/
def hhmm (ts : ℕ) : String := two (ts / 3600 % 24) ++ ":" ++ two (ts / 60 % 60)

/-! ## `convert_snort_metric_data` (app.py lines 212-234) -/

/-- A raw metric value: `some q` iff Python `float(value)` returns `q`. -/
abbrev MVal := Option ℚ

/-- A raw health sample `[time_stamp, value]`; `none` models a record whose
processing raises inside the conversion loop (caught and skipped). -/
abbrev RawSample := Option (ℕ × MVal)

/-- Inner dict type produced per device: `"HH:MM"` label → raw value. -/
abbrev SnortInner := List (String × MVal)

/-- The `(label, value)` pair that the loop body of `convert_snort_metric_data`
would store for one raw sample, `none` when the body raises (skipped). -/
def snortEntry (s : RawSample) : Option (String × MVal) :=
  s.map fun p => (hhmm p.1, p.2)

/-- The inner loop of `convert_snort_metric_data` over one device's raw data:
for each sample, convert the timestamp to `"HH:MM"` and assign
`dict[label] = value`; a sample whose conversion raises is skipped. -/
def convertSnortInner (rs : List RawSample) : SnortInner :=
  rs.foldl (insertStep snortEntry) []

/-- `convert_snort_metric_data`: per device, rebuild the raw sample list as a
dict mapping `"HH:MM"` → value. -/
def convert_snort_metric_data (raw : List (String × List RawSample)) :
    List (String × SnortInner) :=
  raw.map fun p => (p.1, convertSnortInner p.2)

/-! ## `convert_te_test_data` (app.py lines 237-261) -/

/-- One raw ThousandEyes network-metric record, restricted to the fields the
conversion reads; a `none` field models a missing JSON key (KeyError). -/
structure TERecord where
  date : Option String
  avgLatency : Option ℚ
  loss : Option ℚ
  jitter : Option ℚ
deriving DecidableEq

/-- Split a character list at every whitespace character, keeping empty
pieces (one piece per gap). -/
def splitChars : List Char → List (List Char)
  | [] => [[]]
  | c :: rest =>
      match splitChars rest with
      | [] => [[c]]
      | t :: ts => if c.isWhitespace then [] :: t :: ts else (c :: t) :: ts

/-- Python `str.split()` with no argument: split on runs of whitespace,
discarding empty pieces. -/
def pySplit (s : String) : List String :=
  ((splitChars s.data).map String.mk).filter fun t => t ≠ ""

/-- Python `s[:-n]`: all characters of `s` but the last `n` (empty when
`n ≥ len(s)`). -/
def dropRightStr (s : String) (n : ℕ) : String :=
  String.mk (s.data.take (s.data.length - n))

/-- Inner dict type produced per device: `"HH:MM"` → `[avgLatency, loss, jitter]`. -/
abbrev TEInner := List (String × (ℚ × ℚ × ℚ))

/-- The `(key, triple)` pair the loop body of `convert_te_test_data` would
store for one record: key = `data['date'].split()[1][:-3]`, value =
`[avgLatency, loss, jitter]`; `none` when any step raises (skipped). -/
def teEntry (r : TERecord) : Option (String × (ℚ × ℚ × ℚ)) :=
  match r.date with
  | none => none
  | some d =>
      match (pySplit d)[1]? with
      | none => none
      | some t =>
          match r.avgLatency, r.loss, r.jitter with
          | some a, some l, some j => some (dropRightStr t 3, (a, l, j))
          | _, _, _ => none

/-- The inner loop of `convert_te_test_data` over one device's records. -/
def convertTEInner (rs : List TERecord) : TEInner :=
  rs.foldl (insertStep teEntry) []

/-- `convert_te_test_data`: per device, rebuild the raw record list as a dict
mapping `"HH:MM"` → `[avgLatency, loss, jitter]`. -/
def convert_te_test_data (raw : List (String × List TERecord)) :
    List (String × TEInner) :=
  raw.map fun p => (p.1, convertTEInner p.2)

/-! ## Rounding (`round(x, 1)`) -/

/-- Round a rational to the nearest integer, ties to even (CPython's
documented behaviour of builtin `round`). -/
def roundHalfEven (x : ℚ) : ℤ :=
  if x - ⌊x⌋ < 1 / 2 then ⌊x⌋
  else if 1 / 2 < x - ⌊x⌋ then ⌊x⌋ + 1
  else if ⌊x⌋ % 2 = 0 then ⌊x⌋ else ⌊x⌋ + 1

/-- Python `round(x, 1)`: round to one decimal place, ties to even. -/
def pyRound1 (x : ℚ) : ℚ := (roundHalfEven (x * 10) : ℚ) / 10

/-! ## `calculate_snort_avg` / `calculate_snort_max` / `calculate_te_avg`
(app.py lines 264-321) -/

/-- `[float(value) for value in inner.values()]`: parse every stored value;
`none` models the uncaught `ValueError` raised by `float` on the first
non-numeric value. -/
def floatList : SnortInner → Option (List ℚ)
  | [] => some []
  | (_, v) :: rest =>
      match v with
      | none => none
      | some q => (floatList rest).map fun l => q :: l

/-- Loop body of `calculate_snort_avg` for one device:
`round(sum(vs)/len(vs) if len(vs) > 0 else 0, 1)`; `none` when `float` raises. -/
def deviceSnortAvg (inner : SnortInner) : Option ℚ :=
  (floatList inner).map fun vs =>
    pyRound1 (if vs.length > 0 then vs.sum / (vs.length : ℚ) else 0)

/-- Python `max` over a non-empty list (left fold of binary max over the tail). -/
def listMax : List ℚ → ℚ
  | [] => 0
  | x :: rest => rest.foldl max x

/-- Loop body of `calculate_snort_max` for one device:
`round(max(vs) if len(vs) > 0 else 0, 1)`; `none` when `float` raises. -/
def deviceSnortMax (inner : SnortInner) : Option ℚ :=
  (floatList inner).map fun vs =>
    pyRound1 (if vs.length > 0 then listMax vs else 0)

/-- `calculate_snort_avg`: per-device average of the stored CPU values, rounded
to one decimal; an empty series averages to 0.  `none` models the uncaught
exception that aborts the whole loop when any value fails `float`. -/
def calculate_snort_avg : List (String × SnortInner) → Option (List (String × ℚ))
  | [] => some []
  | (d, inner) :: rest =>
      match deviceSnortAvg inner with
      | none => none
      | some a => (calculate_snort_avg rest).map fun r => (d, a) :: r

/-- `calculate_snort_max`: per-device maximum of the stored CPU values, rounded
to one decimal; an empty series gives 0.  `none` models the uncaught exception
when any value fails `float`. -/
def calculate_snort_max : List (String × SnortInner) → Option (List (String × ℚ))
  | [] => some []
  | (d, inner) :: rest =>
      match deviceSnortMax inner with
      | none => none
      | some a => (calculate_snort_max rest).map fun r => (d, a) :: r

/-- Loop body of `calculate_te_avg` for one device: average of the first
component (latency) of each stored triple, rounded to one decimal; an empty
series averages to 0.  Always succeeds (no `float` parse on this path). -/
def deviceTeAvg (inner : TEInner) : ℚ :=
  let vs := inner.map fun p => p.2.1
  pyRound1 (if vs.length > 0 then vs.sum / (vs.length : ℚ) else 0)

/-- `calculate_te_avg`: per-device average latency from the converted TE data. -/
def calculate_te_avg (m : List (String × TEInner)) : List (String × ℚ) :=
  m.map fun p => (p.1, deviceTeAvg p.2)

/-! ## FirePower client (`fmc.py`): `getData` / `authRequest` -/

/-- An HTTP response, reduced to the fields the client inspects. -/
structure HttpResp where
  status : ℕ
  body : String
deriving DecidableEq

/-- Result of `FirePower.authRequest` given the token endpoint's response:
status 204 stores the new tokens, anything else calls `sys.exit(-1)`. -/
inductive AuthResult where
  | ok
  | exitProcess
deriving DecidableEq

/-- `FirePower.authRequest` (fmc.py lines 59-81), abstracted over the
response of `POST /auth/generatetoken`. -/
def authRequest (resp : HttpResp) : AuthResult :=
  if resp.status = 204 then .ok else .exitProcess

/-- Outcome of `FirePower.getData`: a returned value (`some body` on 200,
`none` for the logged "no data" path) or process exit during re-auth. -/
inductive GetOutcome where
  | value (r : Option String)
  | exited
deriving DecidableEq

/-- Trace of one `FirePower.getData` call: its outcome, how many times
`authRequest` ran, and how many GET requests were issued. -/
structure GetTrace where
  outcome : GetOutcome
  authCalls : ℕ
  getCalls : ℕ
deriving DecidableEq

/-- `FirePower.getData` (fmc.py lines 124-140), abstracted over the
transport: `resp1` is the response to the first GET, `authResp` the response
to the re-authentication POST (consulted only on a 401), `resp2` the response
to the single retried GET.  The code retries at most once: after the retry the
status is tested against 200 and every non-200 yields `None`. -/
def getData (resp1 authResp resp2 : HttpResp) : GetTrace :=
  if resp1.status = 401 then
    match authRequest authResp with
    | .exitProcess => ⟨.exited, 1, 1⟩
    | .ok =>
        if resp2.status = 200 then ⟨.value (some resp2.body), 1, 2⟩
        else ⟨.value none, 1, 2⟩
  else
    if resp1.status = 200 then ⟨.value (some resp1.body), 0, 1⟩
    else ⟨.value none, 0, 1⟩

/-! ## ThousandEyes client (`thousandeyes.py`): `getTestData_NetworkE2E` -/

/-- One page of the paginated `/net/metrics` response: its `net.metrics`
array when the field is present, `none` when missing.  The chain is a list of
successive pages; `pages.next` is present exactly when a further page follows
in the list. -/
abbrev TEPage := Option (List ℚ)

/-- The metrics accumulated by the pagination loop: each page contributes its
`net.metrics` array when present, nothing otherwise, in page order. -/
def collectPages (chain : List TEPage) : List ℚ :=
  (chain.map fun p => p.getD []).flatten

/-- `ThousandEyes.getTestData_NetworkE2E` (thousandeyes.py lines 103-132),
abstracted over the response chain.  An empty chain models `getData`
returning `None` for the initial request; otherwise the loop runs iff the
first page has a `net.metrics` field, concatenating every page's metrics
until no `pages.next` cursor remains. -/
def getTestData_NetworkE2E (chain : List TEPage) : Option (List ℚ) :=
  match chain with
  | [] => none
  | first :: _ =>
      match first with
      | none => none
      | some _ => some (collectPages chain)

/-! ## `index` route: merge of derived fields and final sort
(app.py lines 371-415) -/

/-- An FTD device as produced by `get_ftd_devices`, reduced to the fields the
merge-and-sort step reads. -/
structure Device where
  id : String
  name : String
deriving DecidableEq

/-- The per-device data dictionaries available when the merge loop runs.
Each is `Option` of a dict: `none` models both a `None` value and an empty
(falsy) dict failing Python's `if m and device['id'] in m` guard — for an
empty dict the membership test fails anyway, so `Option.bind dlookup` is the
exact semantics of the guard.  Test details are kept opaque as `String`. -/
structure PipelineData where
  te_details : Option (List (String × String))
  snort_data : Option (List (String × SnortInner))
  snort_avg : Option (List (String × ℚ))
  snort_max : Option (List (String × ℚ))
  te_data : Option (List (String × TEInner))
  te_avg : Option (List (String × ℚ))

/-- A device record after the merge loop: identity plus the six derived
fields, each explicitly present and `none` when no data exists. -/
structure EnrichedDevice where
  id : String
  name : String
  te_test_details : Option String
  snort_cpu_data : Option SnortInner
  snort_cpu_avg : Option ℚ
  snort_cpu_max : Option ℚ
  te_test_data : Option TEInner
  te_latency_avg : Option ℚ

/-- Body of the merge loop for one device: each derived field is the lookup
of the device id in the corresponding dict, `none` when the dict is absent or
lacks the id. -/
def enrich (pd : PipelineData) (d : Device) : EnrichedDevice where
  id := d.id
  name := d.name
  te_test_details := pd.te_details.bind (dlookup d.id)
  snort_cpu_data := pd.snort_data.bind (dlookup d.id)
  snort_cpu_avg := pd.snort_avg.bind (dlookup d.id)
  snort_cpu_max := pd.snort_max.bind (dlookup d.id)
  te_test_data := pd.te_data.bind (dlookup d.id)
  te_latency_avg := pd.te_avg.bind (dlookup d.id)

/-- The sort key relation of `sorted(devices, key=lambda device: device['name'])`. -/
def nameLE (a b : EnrichedDevice) : Prop := a.name ≤ b.name

instance : DecidableRel nameLE := fun a b =>
  inferInstanceAs (Decidable (a.name ≤ b.name))

instance : IsTotal EnrichedDevice nameLE := ⟨fun a b => le_total a.name b.name⟩

instance : IsTrans EnrichedDevice nameLE := ⟨fun _ _ _ h1 h2 => le_trans h1 h2⟩

/-- The merge-and-sort step of the `index` route: attach the six derived
fields to every device, then sort the list by name ascending (a stable sort,
as Python's `sorted`). -/
def indexDeviceList (devices : List Device) (pd : PipelineData) :
    List EnrichedDevice :=
  List.insertionSort nameLE (devices.map (enrich pd))

/-! ## Dictionary lemmas -/

theorem dlookup_dinsert {K V : Type} [DecidableEq K] (k k1 : K) (v : V)
    (d : List (K × V)) :
    dlookup k (dinsert k1 v d) = if k1 = k then some v else dlookup k d := by
  induction d with
  | nil => simp [dinsert, dlookup]
  | cons p rest ih =>
      obtain ⟨k2, v2⟩ := p
      simp only [dinsert]
      by_cases h2 : k2 = k1
      · subst h2
        by_cases hk : k2 = k <;> simp [dlookup, hk]
      · simp only [if_neg h2, dlookup]
        by_cases hk : k2 = k
        · subst hk
          have hk1 : ¬k1 = k2 := fun h => h2 h.symm
          simp [dlookup, if_neg hk1]
        · simp [dlookup, if_neg hk, ih]

theorem mem_dkeys_dinsert {K V : Type} [DecidableEq K] (a k : K) (v : V)
    (d : List (K × V)) :
    a ∈ dkeys (dinsert k v d) ↔ a = k ∨ a ∈ dkeys d := by
  induction d with
  | nil => simp [dinsert, dkeys]
  | cons p rest ih =>
      obtain ⟨k2, v2⟩ := p
      by_cases h2 : k2 = k
      · subst h2; simp [dinsert, dkeys]
      · simp [dinsert, dkeys, h2] at ih ⊢
        rw [ih]; tauto

theorem nodup_dkeys_dinsert {K V : Type} [DecidableEq K] (k : K) (v : V)
    (d : List (K × V)) (h : (dkeys d).Nodup) :
    (dkeys (dinsert k v d)).Nodup := by
  induction d with
  | nil => simp [dinsert, dkeys]
  | cons p rest ih =>
      obtain ⟨k2, v2⟩ := p
      simp only [dkeys, List.map_cons, List.nodup_cons] at h
      by_cases h2 : k2 = k
      · subst h2
        simpa [dinsert, dkeys, List.nodup_cons] using h
      · simp only [dinsert, if_neg h2, dkeys, List.map_cons, List.nodup_cons]
        refine ⟨?_, ih h.2⟩
        intro hmem
        rcases (mem_dkeys_dinsert k2 k v rest).mp hmem with h3 | h3
        · exact h2 h3
        · exact h.1 h3

theorem dlookup_foldl_insertStep {A K V : Type} [DecidableEq K]
    (f : A → Option (K × V)) (rs : List A) :
    ∀ (d : List (K × V)) (k : K),
      dlookup k (rs.foldl (insertStep f) d) =
        orO (lastWith k (rs.filterMap f)) (dlookup k d) := by
  induction rs with
  | nil => intro d k; simp [lastWith, orO]
  | cons r rest ih =>
      intro d k
      cases hf : f r with
      | none => simp [insertStep, hf, ih]
      | some kv =>
          obtain ⟨k1, v⟩ := kv
          simp only [List.foldl_cons, insertStep, hf, List.filterMap_cons]
          rw [ih, dlookup_dinsert]
          cases hl : lastWith k (rest.filterMap f) with
          | some w => simp [lastWith, orO, hl]
          | none => by_cases hk : k1 = k <;> simp [lastWith, orO, hl, hk]

theorem mem_dkeys_foldl_insertStep {A K V : Type} [DecidableEq K]
    (f : A → Option (K × V)) (rs : List A) :
    ∀ (d : List (K × V)) (k : K),
      k ∈ dkeys (rs.foldl (insertStep f) d) ↔
        k ∈ (rs.filterMap f).map Prod.fst ∨ k ∈ dkeys d := by
  induction rs with
  | nil => intro d k; simp
  | cons r rest ih =>
      intro d k
      cases hf : f r with
      | none => simp [insertStep, hf, ih]
      | some kv =>
          simp only [List.foldl_cons, insertStep, hf, List.filterMap_cons,
            List.map_cons, List.mem_cons]
          rw [ih]
          constructor
          · rintro (h | h)
            · exact Or.inl (Or.inr h)
            · rcases (mem_dkeys_dinsert k kv.1 kv.2 d).mp h with h1 | h1
              · exact Or.inl (Or.inl h1)
              · exact Or.inr h1
          · rintro ((h | h) | h)
            · exact Or.inr ((mem_dkeys_dinsert k kv.1 kv.2 d).mpr (Or.inl h))
            · exact Or.inl h
            · exact Or.inr ((mem_dkeys_dinsert k kv.1 kv.2 d).mpr (Or.inr h))

theorem nodup_dkeys_foldl_insertStep {A K V : Type} [DecidableEq K]
    (f : A → Option (K × V)) (rs : List A) :
    ∀ d : List (K × V), (dkeys d).Nodup →
      (dkeys (rs.foldl (insertStep f) d)).Nodup := by
  induction rs with
  | nil => intro d h; exact h
  | cons r rest ih =>
      intro d h
      cases hf : f r with
      | none =>
          simp only [List.foldl_cons, insertStep, hf]
          exact ih d h
      | some kv =>
          simp only [List.foldl_cons, insertStep, hf]
          exact ih _ (nodup_dkeys_dinsert kv.1 kv.2 d h)

theorem foldl_insertStep_skip {A K V : Type} [DecidableEq K]
    (f : A → Option (K × V)) (bad : A) (hb : f bad = none)
    (rs1 rs2 : List A) (d : List (K × V)) :
    (rs1 ++ bad :: rs2).foldl (insertStep f) d =
      (rs1 ++ rs2).foldl (insertStep f) d := by
  simp [List.foldl_append, List.foldl_cons, insertStep, hb]

theorem foldl_insertStep_all_none {A K V : Type} [DecidableEq K]
    (f : A → Option (K × V)) (rs : List A)
    (h : ∀ r ∈ rs, f r = none) :
    rs.foldl (insertStep f) ([] : List (K × V)) = [] := by
  induction rs with
  | nil => rfl
  | cons r rest ih =>
      simp only [List.foldl_cons, insertStep, h r (List.mem_cons_self r rest)]
      exact ih fun r1 hr1 => h r1 (List.mem_cons_of_mem r hr1)

theorem mem_map_fst {K V : Type} (k : K) (L : List (K × V)) :
    k ∈ L.map Prod.fst ↔ ∃ v, (k, v) ∈ L := by
  constructor
  · intro h
    rcases List.mem_map.mp h with ⟨⟨a, b⟩, hm, he⟩
    exact ⟨b, by simpa [← he] using hm⟩
  · rintro ⟨v, hv⟩
    exact List.mem_map.mpr ⟨(k, v), hv, rfl⟩

theorem filterMap_snortEntry_map_some (series : List (ℕ × MVal)) :
    (series.map some).filterMap snortEntry =
      series.map fun p => (hhmm p.1, p.2) := by
  induction series with
  | nil => rfl
  | cons p rest ih => simp [snortEntry, ih]

theorem orO_none {V : Type} (a : Option V) : orO a none = a := by
  cases a <;> rfl

/-! ## Rounding lemmas -/

theorem abs_roundHalfEven_sub_le (y : ℚ) :
    |(roundHalfEven y : ℚ) - y| ≤ 1 / 2 := by
  have h0 : (⌊y⌋ : ℚ) ≤ y := Int.floor_le y
  have h1 : y < ⌊y⌋ + 1 := Int.lt_floor_add_one y
  unfold roundHalfEven
  split_ifs with hf hg he
  · rw [abs_sub_comm, abs_of_nonneg (by linarith)]
    linarith
  · push_cast
    rw [abs_of_nonneg (by linarith)]
    linarith
  · rw [abs_sub_comm, abs_of_nonneg (by linarith)]
    linarith
  · push_cast
    rw [abs_of_nonneg (by linarith)]
    linarith

theorem pyRound1_close (x : ℚ) : |pyRound1 x - x| ≤ 1 / 20 := by
  have h := abs_roundHalfEven_sub_le (x * 10)
  have he : pyRound1 x - x = ((roundHalfEven (x * 10) : ℚ) - x * 10) / 10 := by
    unfold pyRound1; ring
  rw [he, abs_div]
  rw [abs_of_nonneg (by norm_num : (0 : ℚ) ≤ 10)]
  linarith

theorem pyRound1_zero : pyRound1 0 = 0 := by
  norm_num [pyRound1, roundHalfEven]

/-! ## Per-device statistics on the empty series -/

theorem deviceSnortAvg_nil : deviceSnortAvg [] = some 0 := by
  simp [deviceSnortAvg, floatList, pyRound1_zero]

theorem deviceSnortMax_nil : deviceSnortMax [] = some 0 := by
  simp [deviceSnortMax, floatList, pyRound1_zero]

theorem deviceTeAvg_nil : deviceTeAvg [] = 0 := by
  simp [deviceTeAvg, pyRound1_zero]

theorem mem_calculate_snort_avg (m : List (String × SnortInner)) (d : String)
    (out : List (String × ℚ)) (hm : (d, ([] : SnortInner)) ∈ m)
    (hout : calculate_snort_avg m = some out) : (d, (0 : ℚ)) ∈ out := by
  induction m generalizing out with
  | nil => cases hm
  | cons p rest ih =>
      obtain ⟨d1, inner1⟩ := p
      rw [calculate_snort_avg] at hout
      cases ha : deviceSnortAvg inner1 with
      | none => rw [ha] at hout; cases hout
      | some a =>
          rw [ha] at hout
          cases hr : calculate_snort_avg rest with
          | none => rw [hr] at hout; cases hout
          | some r =>
              rw [hr] at hout
              simp only [Option.map_some] at hout
              injection hout with hout
              subst hout
              rcases List.mem_cons.mp hm with he | ht
              · obtain ⟨h1, h2⟩ := Prod.mk.inj he
                subst h1; subst h2
                rw [deviceSnortAvg_nil] at ha
                injection ha with ha
                subst ha
                exact List.mem_cons_self _ _
              · exact List.mem_cons_of_mem _ (ih r ht hr)

theorem mem_calculate_snort_max (m : List (String × SnortInner)) (d : String)
    (out : List (String × ℚ)) (hm : (d, ([] : SnortInner)) ∈ m)
    (hout : calculate_snort_max m = some out) : (d, (0 : ℚ)) ∈ out := by
  induction m generalizing out with
  | nil => cases hm
  | cons p rest ih =>
      obtain ⟨d1, inner1⟩ := p
      rw [calculate_snort_max] at hout
      cases ha : deviceSnortMax inner1 with
      | none => rw [ha] at hout; cases hout
      | some a =>
          rw [ha] at hout
          cases hr : calculate_snort_max rest with
          | none => rw [hr] at hout; cases hout
          | some r =>
              rw [hr] at hout
              simp only [Option.map_some] at hout
              injection hout with hout
              subst hout
              rcases List.mem_cons.mp hm with he | ht
              · obtain ⟨h1, h2⟩ := Prod.mk.inj he
                subst h1; subst h2
                rw [deviceSnortMax_nil] at ha
                injection ha with ha
                subst ha
                exact List.mem_cons_self _ _
              · exact List.mem_cons_of_mem _ (ih r ht hr)

/-! ## Claims -/

/-- C1: for every raw health-metric series (a list of `(timestamp, value)`
pairs), `convert_snort_metric_data`'s per-device normalization produces a
dict whose keys are exactly the distinct `"HH:MM"` labels encountered (each
exactly once, the key list has no duplicates), and where the value stored
under a label is the value of the last sample in list order bearing that
label (last wins on collision). -/
theorem claim_C1_normalization_last_wins
    (series : List (ℕ × MVal)) (k : String) :
    dlookup k (convertSnortInner (series.map some)) =
      lastWith k (series.map fun p => (hhmm p.1, p.2))
    ∧ (dkeys (convertSnortInner (series.map some))).Nodup
    ∧ (k ∈ dkeys (convertSnortInner (series.map some)) ↔
        k ∈ series.map fun p => hhmm p.1) := by
  refine ⟨?_, ?_, ?_⟩
  · rw [convertSnortInner, dlookup_foldl_insertStep,
      filterMap_snortEntry_map_some]
    exact orO_none _
  · exact nodup_dkeys_foldl_insertStep _ _ [] (by simp [dkeys])
  · rw [convertSnortInner, mem_dkeys_foldl_insertStep,
      filterMap_snortEntry_map_some]
    simp [dkeys, List.map_map, Function.comp]

/-- C3 (code bug): a record with a bad timestamp is skipped individually by
`convert_snort_metric_data`, and a record with a missing date field is
skipped individually by `convert_te_test_data`; but a record whose metric
value is non-numeric is NOT skipped — the conversion stores it unchanged and
`calculate_snort_avg` then raises an uncaught `ValueError` in
`float(value)` (modelled as `none`), aborting the computation instead of
yielding statistics from the remaining records.  Here `none` in the second
component of a sample models a non-numeric value such as `"abc"`. -/
theorem claim_C3_nonnumeric_value_aborts :
    convert_snort_metric_data
        [("d", [some (1700000000, none),
                some (1700000060, some (41 / 10 : ℚ))])] =
      [("d", [("22:13", (none : MVal)),
              ("22:14", some (41 / 10 : ℚ))])]
    ∧ calculate_snort_avg
        [("d", [("22:13", (none : MVal)),
                ("22:14", some (41 / 10 : ℚ))])] = none
    ∧ convertSnortInner [none, some (1700000060, some (41 / 10 : ℚ))] =
        [("22:14", some (41 / 10 : ℚ))]
    ∧ convertTEInner
        [⟨none, some 5, some 0, some 1⟩,
         ⟨some "2023-11-14 22:14:20", some 5, some 0, some 1⟩] =
      [("22:14", (5, 0, 1))] := by
  exact ⟨rfl, rfl, rfl, rfl⟩

/-- C4 counterexample: in the scenario
`[[1700000000, "3.5"], [1700000060, "4.1"]]` the two samples do NOT share
one minute: 1700000000 is 22:13:20 UTC and 1700000060 is 22:14:20 UTC, so
the normalized series has two entries (neither keyed `"12:26"`) and the
average is 3.8, not 4.1. -/
theorem claim_C4_counterexample :
    hhmm 1700000000 = "22:13"
    ∧ hhmm 1700000060 = "22:14"
    ∧ ("22:13" : String) ≠ "12:26"
    ∧ convert_snort_metric_data
        [("d", [some (1700000000, some (7 / 2 : ℚ)),
                some (1700000060, some (41 / 10 : ℚ))])] =
      [("d", [("22:13", some (7 / 2 : ℚ)),
              ("22:14", some (41 / 10 : ℚ))])]
    ∧ ((19 : ℚ) / 5 ≠ 41 / 10) := by
  refine ⟨rfl, rfl, by decide, rfl, by norm_num⟩

/-- C4 (amended): for the raw series `[[1700000000, "3.5"], [1700000060,
"4.1"]]` the samples fall in the two distinct minutes 22:13 and 22:14 UTC,
`convert_snort_metric_data` yields the two-entry normalized series
`{"22:13": "3.5", "22:14": "4.1"}`, and `calculate_snort_avg` over it yields
3.8. -/
theorem claim_C4_amended_scenario :
    calculate_snort_avg
        (convert_snort_metric_data
          [("d", [some (1700000000, some (7 / 2 : ℚ)),
                  some (1700000060, some (41 / 10 : ℚ))])]) =
      some [("d", (19 / 5 : ℚ))] := by
  have h1 : convert_snort_metric_data
      [("d", [some (1700000000, some (7 / 2 : ℚ)),
              some (1700000060, some (41 / 10 : ℚ))])] =
      [("d", [("22:13", some (7 / 2 : ℚ)),
              ("22:14", some (41 / 10 : ℚ))])] := rfl
  rw [h1]
  simp only [calculate_snort_avg, deviceSnortAvg, floatList, Option.map_some]
  norm_num [pyRound1, roundHalfEven]

/-- C2: for every device whose normalized series is empty,
`calculate_snort_avg` returns average 0, `calculate_snort_max` returns
maximum 0 and `calculate_te_avg` returns average 0 — the empty case never
raises (on an input holding only the empty-series device, each function
returns normally with value 0; and whenever the functions return at all, the
empty-series device is mapped to 0). -/
theorem claim_C2_empty_series_zero
    (m : List (String × SnortInner)) (mt : List (String × TEInner))
    (d : String) :
    calculate_snort_avg [(d, ([] : SnortInner))] = some [(d, 0)]
    ∧ calculate_snort_max [(d, ([] : SnortInner))] = some [(d, 0)]
    ∧ calculate_te_avg [(d, ([] : TEInner))] = [(d, 0)]
    ∧ ((d, ([] : SnortInner)) ∈ m → ∀ out, calculate_snort_avg m = some out →
        (d, (0 : ℚ)) ∈ out)
    ∧ ((d, ([] : SnortInner)) ∈ m → ∀ out, calculate_snort_max m = some out →
        (d, (0 : ℚ)) ∈ out)
    ∧ ((d, ([] : TEInner)) ∈ mt → (d, (0 : ℚ)) ∈ calculate_te_avg mt) := by
  refine ⟨?_, ?_, ?_, ?_, ?_, ?_⟩
  · simp [calculate_snort_avg, deviceSnortAvg_nil]
  · simp [calculate_snort_max, deviceSnortMax_nil]
  · simp [calculate_te_avg, deviceTeAvg_nil]
  · intro hm out hout; exact mem_calculate_snort_avg m d out hm hout
  · intro hm out hout; exact mem_calculate_snort_max m d out hm hout
  · intro hm
    unfold calculate_te_avg
    refine List.mem_map.mpr ⟨(d, ([] : TEInner)), hm, ?_⟩
    simp [deviceTeAvg_nil]

/-- Witness for C2 at a one-device input. -/
theorem claim_C2_witness :
    calculate_snort_avg [("d", ([] : SnortInner))] = some [("d", 0)]
    ∧ (("d", (0 : ℚ)) ∈ calculate_te_avg [("d", ([] : TEInner))]) := by
  have h := claim_C2_empty_series_zero [("d", ([] : SnortInner))]
    [("d", ([] : TEInner))] "d"
  have h4 := h.2.2.2.1 (by simp) [("d", 0)] h.1
  exact ⟨h.1, h.2.2.2.2.2 (by simp)⟩

/-- C5: a 401 on a `FirePower.getData` GET triggers exactly one
re-authentication and exactly one retry of the same request (1 auth call, 2
GETs); any non-200 final response — including a second consecutive 401 — is
returned to the caller as the no-data sentinel `None`, never as an exception
and never as a further retry; without a 401 there is no re-authentication
(0 auth calls, 1 GET). -/
theorem claim_C5_one_reauth_one_retry
    (r1 ra r2 : HttpResp) (hauth : ra.status = 204) :
    (r1.status = 401 →
      getData r1 ra r2 =
        ⟨.value (if r2.status = 200 then some r2.body else none), 1, 2⟩)
    ∧ (¬r1.status = 401 →
      getData r1 ra r2 =
        ⟨.value (if r1.status = 200 then some r1.body else none), 0, 1⟩) := by
  constructor
  · intro h401
    simp only [getData, if_pos h401, authRequest, if_pos hauth]
    by_cases h2 : r2.status = 200 <;> simp [h2]
  · intro hn
    simp only [getData, if_neg hn]
    by_cases h1 : r1.status = 200 <;> simp [h1]

/-- Witness for C5: two consecutive 401 responses yield `None` after one
re-authentication and one retry. -/
theorem claim_C5_witness :
    getData ⟨401, "a"⟩ ⟨204, "t"⟩ ⟨401, "b"⟩ =
      ⟨.value none, 1, 2⟩ := by
  have h := (claim_C5_one_reauth_one_retry ⟨401, "a"⟩ ⟨204, "t"⟩ ⟨401, "b"⟩
    rfl).1 rfl
  simpa using h

/-- C6: `getTestData_NetworkE2E` follows the page chain until no next cursor
remains and returns the concatenation of every page's `net.metrics` array in
page order (in particular for a 3-page chain); when the first page has no
metrics field it returns the not-found sentinel `None`. -/
theorem claim_C6_pagination
    (chain rest : List TEPage) (m : List ℚ) :
    (chain = some m :: rest →
      getTestData_NetworkE2E chain =
        some ((chain.map fun p => p.getD []).flatten))
    ∧ (∀ a b c : List ℚ,
        getTestData_NetworkE2E [some a, some b, some c] =
          some (a ++ b ++ c))
    ∧ getTestData_NetworkE2E (none :: rest) = none := by
  refine ⟨?_, ?_, rfl⟩
  · rintro rfl
    rfl
  · intro a b c
    simp [getTestData_NetworkE2E, collectPages]

/-- Witness for C6 at a concrete 3-page chain. -/
theorem claim_C6_witness :
    getTestData_NetworkE2E [some [(1 : ℚ)], some [2], some [3]] =
      some [1, 2, 3] := by
  have h := (claim_C6_pagination [some [(1 : ℚ)], some [2], some [3]]
    [some [2], some [3]] [1]).1 rfl
  simpa using h

/-- C7: for every non-empty fetched device list, the merge-and-sort step of
the `index` route yields a list sorted by name ascending that is a
permutation of the enriched devices (no device dropped), where every record
carries all six derived fields, each equal to the lookup of the device id in
the corresponding data dict — hence explicitly `none` when no data exists
for that device, never omitted. -/
theorem claim_C7_sorted_uniform_fields
    (devices : List Device) (pd : PipelineData) (hne : devices ≠ []) :
    indexDeviceList devices pd ≠ []
    ∧ List.Sorted nameLE (indexDeviceList devices pd)
    ∧ List.Perm (indexDeviceList devices pd) (devices.map (enrich pd))
    ∧ ∀ d ∈ devices,
        (enrich pd d).id = d.id ∧ (enrich pd d).name = d.name
        ∧ (enrich pd d).te_test_details = pd.te_details.bind (dlookup d.id)
        ∧ (enrich pd d).snort_cpu_data = pd.snort_data.bind (dlookup d.id)
        ∧ (enrich pd d).snort_cpu_avg = pd.snort_avg.bind (dlookup d.id)
        ∧ (enrich pd d).snort_cpu_max = pd.snort_max.bind (dlookup d.id)
        ∧ (enrich pd d).te_test_data = pd.te_data.bind (dlookup d.id)
        ∧ (enrich pd d).te_latency_avg = pd.te_avg.bind (dlookup d.id) := by
  refine ⟨?_, List.sorted_insertionSort nameLE _,
    List.perm_insertionSort nameLE _, ?_⟩
  · intro h0
    apply hne
    have h1 : (indexDeviceList devices pd).length = devices.length := by
      rw [indexDeviceList, List.length_insertionSort, List.length_map]
    rw [h0] at h1
    exact List.length_eq_zero.mp h1.symm
  · intro d _
    exact ⟨rfl, rfl, rfl, rfl, rfl, rfl, rfl, rfl⟩

/-- Witness for C7 at a concrete two-device list with no upstream data. -/
theorem claim_C7_witness :
    List.Sorted nameLE
      (indexDeviceList [⟨"i2", "b"⟩, ⟨"i1", "a"⟩]
        ⟨none, none, none, none, none, none⟩)
    ∧ List.Perm
        (indexDeviceList [⟨"i2", "b"⟩, ⟨"i1", "a"⟩]
          ⟨none, none, none, none, none, none⟩)
        ([⟨"i2", "b"⟩, ⟨"i1", "a"⟩].map
          (enrich ⟨none, none, none, none, none, none⟩)) := by
  have h := claim_C7_sorted_uniform_fields [⟨"i2", "b"⟩, ⟨"i1", "a"⟩]
    ⟨none, none, none, none, none, none⟩ (by simp)
  exact ⟨h.2.1, h.2.2.1⟩

/-- C8: every summary statistic is the exact average (or maximum) rounded to
one decimal place: on a non-empty parsed series the SNORT average equals
`pyRound1` of the exact mean, the SNORT maximum equals `pyRound1` of the
exact maximum, the TE latency average equals `pyRound1` of the exact mean;
7.249 rounds to 7.2 (and the tie 7.25 also rounds to 7.2, ties-to-even);
and `pyRound1` always returns a multiple of 1/10 within 1/20 of its input. -/
theorem claim_C8_round_one_decimal
    (inner : SnortInner) (te : TEInner) (vs : List ℚ)
    (hfl : floatList inner = some vs) (hne : vs ≠ []) :
    deviceSnortAvg inner = some (pyRound1 (vs.sum / (vs.length : ℚ)))
    ∧ deviceSnortMax inner = some (pyRound1 (listMax vs))
    ∧ (te ≠ [] →
        deviceTeAvg te =
          pyRound1 ((te.map fun p => p.2.1).sum / (te.length : ℚ)))
    ∧ pyRound1 (7249 / 1000) = 36 / 5
    ∧ pyRound1 (725 / 100) = 36 / 5
    ∧ ∀ x : ℚ, ∃ n : ℤ,
        pyRound1 x = (n : ℚ) / 10 ∧ |pyRound1 x - x| ≤ 1 / 20 := by
  have hlen : vs.length > 0 := List.length_pos.mpr hne
  refine ⟨?_, ?_, ?_, ?_, ?_, ?_⟩
  · rw [deviceSnortAvg, hfl]
    simp [hlen]
  · rw [deviceSnortMax, hfl]
    simp [hlen]
  · intro hte
    have hl2 : te.length > 0 := List.length_pos.mpr hte
    rw [deviceTeAvg]
    simp [List.length_map, hl2]
  · norm_num [pyRound1, roundHalfEven]
  · norm_num [pyRound1, roundHalfEven]
  · intro x
    exact ⟨roundHalfEven (x * 10), rfl, pyRound1_close x⟩

/-- Witness for C8 at a one-sample series with value 7.249. -/
theorem claim_C8_witness :
    pyRound1 (7249 / 1000) = 36 / 5
    ∧ deviceSnortMax [("10:00", some (7249 / 1000 : ℚ))] =
        some (pyRound1 (listMax [7249 / 1000])) := by
  have h := claim_C8_round_one_decimal [("10:00", some (7249 / 1000 : ℚ))]
    [] [7249 / 1000] rfl (by simp)
  exact ⟨h.2.2.2.1, h.2.1⟩

/-- C9: `convert_te_test_data`'s per-device normalization keys each raw TE
record by the `"HH:MM"` obtained from the time component of its date string
(`date.split()[1]`) with the trailing 3 characters stripped, maps it to the
triple `[avgLatency, loss, jitter]` (last record wins per key), and skips —
without aborting — every record whose extraction fails. -/
theorem claim_C9_te_record_normalization
    (rs rs1 rs2 : List TERecord) (bad r : TERecord) (k : String)
    (ds t : String) (a l j : ℚ) :
    dlookup k (convertTEInner rs) = lastWith k (rs.filterMap teEntry)
    ∧ (k ∈ dkeys (convertTEInner rs) ↔ ∃ v, (k, v) ∈ rs.filterMap teEntry)
    ∧ (r.date = some ds → (pySplit ds)[1]? = some t →
        r.avgLatency = some a → r.loss = some l → r.jitter = some j →
        teEntry r = some (dropRightStr t 3, (a, l, j)))
    ∧ (teEntry bad = none →
        convertTEInner (rs1 ++ bad :: rs2) = convertTEInner (rs1 ++ rs2)) := by
  refine ⟨?_, ?_, ?_, ?_⟩
  · rw [convertTEInner, dlookup_foldl_insertStep]
    exact orO_none _
  · rw [convertTEInner, mem_dkeys_foldl_insertStep]
    simp [dkeys, mem_map_fst]
  · intro h1 h2 h3 h4 h5
    simp [teEntry, h1, h2, h3, h4, h5]
  · intro hb
    exact foldl_insertStep_skip teEntry bad hb rs1 rs2 []

/-- Witness for C9 at a concrete record dated `2023-11-14 22:14:20`. -/
theorem claim_C9_witness :
    teEntry ⟨some "2023-11-14 22:14:20", some 5, some 0, some 1⟩ =
      some ("22:14", (5, 0, 1)) := by
  have h := (claim_C9_te_record_normalization [] [] []
    ⟨none, none, none, none⟩
    ⟨some "2023-11-14 22:14:20", some 5, some 0, some 1⟩
    "k" "2023-11-14 22:14:20" "22:14:20" 5 0 1).2.2.1 rfl rfl rfl rfl rfl
  simpa using h

/-- C10: both conversions preserve the device-key set exactly — every input
device appears in the output (with its converted inner dict), and a device
all of whose records are malformed keeps an empty inner dict rather than
being dropped, so the later statistics assign it 0. -/
theorem claim_C10_keys_preserved
    (raw : List (String × List RawSample))
    (rawTE : List (String × List TERecord))
    (d : String) (rs : List RawSample) (ts : List TERecord) :
    dkeys (convert_snort_metric_data raw) = dkeys raw
    ∧ dkeys (convert_te_test_data rawTE) = dkeys rawTE
    ∧ ((d, rs) ∈ raw →
        (d, convertSnortInner rs) ∈ convert_snort_metric_data raw)
    ∧ ((∀ r ∈ rs, snortEntry r = none) → convertSnortInner rs = [])
    ∧ ((d, ts) ∈ rawTE →
        (d, convertTEInner ts) ∈ convert_te_test_data rawTE)
    ∧ ((∀ r ∈ ts, teEntry r = none) → convertTEInner ts = [])
    ∧ deviceSnortAvg [] = some 0
    ∧ deviceTeAvg [] = 0 := by
  refine ⟨?_, ?_, ?_, ?_, ?_, ?_, deviceSnortAvg_nil, deviceTeAvg_nil⟩
  · simp [convert_snort_metric_data, dkeys, List.map_map, Function.comp]
  · simp [convert_te_test_data, dkeys, List.map_map, Function.comp]
  · intro h
    exact List.mem_map.mpr ⟨(d, rs), h, rfl⟩
  · exact foldl_insertStep_all_none snortEntry rs
  · intro h
    exact List.mem_map.mpr ⟨(d, ts), h, rfl⟩
  · exact foldl_insertStep_all_none teEntry ts

/-- Witness for C10: a device whose only record is malformed stays in the
output with an empty inner dict. -/
theorem claim_C10_witness :
    (("d", ([] : SnortInner)) ∈
      convert_snort_metric_data [("d", [(none : RawSample)])])
    ∧ convertSnortInner [(none : RawSample)] = [] := by
  have h := claim_C10_keys_preserved [("d", [(none : RawSample)])] []
    "d" [(none : RawSample)] []
  have he : convertSnortInner [(none : RawSample)] = [] :=
    h.2.2.2.1 (by intro r hr; simp at hr; subst hr; rfl)
  refine ⟨?_, he⟩
  have hm := h.2.2.1 (by simp)
  rwa [he] at hm

end Dashboard
